import Mathlib

/-!
Verification development for the multi-repository fetch/setup engine of the
just build system.  The definitions below are shallow embeddings of:

* src/other_tools/ops_maps/git_tree_fetch_map.cpp (CreateGitTreeFetchMap):
  the per-key compute function of the git-tree fetch map, modelled as a
  straight-line function over an environment record that fixes the outcome
  of every external operation (critical git ops, tree checks, tmp-dir
  creation, subprocess execution, remote CAS availability, ...) together
  with an event trace recording progress-tracker and external-contact
  events.

* the repository dependency resolver (ReachableRepositories,
  DefaultReachableRepositories) and the fetch driver (MultiRepoFetch) of
  the just-mr main file, over a small model of the Expression values the
  source manipulates.

* the two ReadLocation overloads of the just-mr main file.
-/

/-! Small string utilities (JSON dump of a command line, nlohmann-style) -/

/-- Hexadecimal digit for a value below 16, as used in JSON \uXXXX escapes. -/
def hexDigit (n : Nat) : Char :=
  if n < 10 then Char.ofNat (48 + n) else Char.ofNat (87 + (n - 10))

/-- Four-digit lower-case hexadecimal rendering of a small code point. -/
def hex4 (n : Nat) : String :=
  String.mk [hexDigit ((n / 4096) % 16), hexDigit ((n / 256) % 16),
             hexDigit ((n / 16) % 16), hexDigit (n % 16)]

/-- JSON escaping of a single character, following nlohmann::json dump
(with default settings only the quote, the backslash, the named control
escapes and other control characters below 0x20 are escaped). -/
def escapeJsonChar (c : Char) : String :=
  if c = '"' then "\\\""
  else if c = '\\' then "\\\\"
  else if c = Char.ofNat 8 then "\\b"
  else if c = Char.ofNat 12 then "\\f"
  else if c = '\n' then "\\n"
  else if c = Char.ofNat 13 then "\\r"
  else if c = '\t' then "\\t"
  else if c.toNat < 32 then "\\u" ++ hex4 c.toNat
  else String.mk [c]

/-- JSON rendering of one string literal. -/
def dumpJsonString (s : String) : String :=
  "\"" ++ String.join (s.data.map escapeJsonChar) ++ "\""

/-- JSON rendering of a list of strings, as nlohmann::json(vector).dump()
produces it: a comma-separated array without spaces. -/
def dumpJsonStringList (l : List String) : String :=
  "[" ++ String.intercalate "," (l.map dumpJsonString) ++ "]"

/-- Substring containment expressed by an explicit decomposition. -/
def containsSub (s sub : String) : Prop :=
  ∃ a b : String, s = a ++ sub ++ b

/-! Model of the git-tree fetch map compute function

Source: src/other_tools/ops_maps/git_tree_fetch_map.cpp, the lambda
tree_to_cache inside CreateGitTreeFetchMap.  The continuation chain over
the critical-git-op map, the import-to-git map and the external world is
flattened into one function; the outcome of every external operation is
prescribed by a FetchEnv record.  Error channels whose message is produced
by the callee are modelled as Option String (some msg = that channel
fired) or Except String Bool (error msg versus a boolean answer). -/

/-- Key of the git-tree fetch map (GitTreeInfo in the source). -/
structure GitTreeInfo where
  hash : String
  command : List String
  envVars : List (String × String)
  inheritEnv : List String
  origin : String

/-- Outcome of SystemCommand::Execute together with the subsequent
FileSystemManager::ReadFile calls on the captured stdout and stderr files.
The exit status (retval) is recorded but — as in the source — never
inspected by the fetch-map compute function. -/
structure CommandOutput where
  retval : Nat
  stdoutRead : Option String
  stderrRead : Option String

/-- Environment fixing the outcome of every external operation performed by
the compute function of the git-tree fetch map, in the order the source
performs them. -/
structure FetchEnv where
  /-- Error continuation of the critical-op map for ENSURE_INIT. -/
  ensureInitErr : Option String
  /-- Flag op_result.result of the ENSURE_INIT critical op. -/
  ensureInitResult : Bool
  /-- GitRepoRemote::Open on the Git cache CAS. -/
  openGitCacheOk : Bool
  /-- CheckTreeExists on the Git cache (error message or presence). -/
  cacheTreeCheck : Except String Bool
  /-- Both remote_api and local_api are non-null. -/
  remoteGiven : Bool
  /-- remote_api-IsAvailable on the tree digest. -/
  remoteAvailable : Bool
  /-- remote_api-RetrieveToCas into the local api. -/
  retrieveToCasOk : Bool
  /-- CreateTypedTmpDir for copying the tree from the remote CAS. -/
  tmpDirRemoteOk : Bool
  /-- local_api-RetrieveToPaths into that tmp dir. -/
  retrieveToPathsOk : Bool
  /-- Error continuation of the import-to-git map. -/
  importErr : Option String
  /-- Flag values[0].second of the import-to-git map result. -/
  importOk : Bool
  /-- CreateTypedTmpDir for the command execution root. -/
  tmpDirOk : Bool
  /-- CreateTypedTmpDir for the command output files. -/
  outDirOk : Bool
  /-- Ambient process environment read via getenv. -/
  ambient : String → Option String
  /-- SystemCommand::Execute on a command line and environment; none models
  a failure to launch. -/
  exec : List String → List (String × String) → Option CommandOutput
  /-- Error continuation of the critical-op map for INITIAL_COMMIT. -/
  initialCommitErr : Option String
  /-- Commit hash op_result.result of the INITIAL_COMMIT critical op. -/
  commitResult : Option String
  /-- GitRepoRemote::Open on the just-created working repository. -/
  openTmpRepoOk : Bool
  /-- CheckTreeExists on the working repository. -/
  repoTreeCheck : Except String Bool
  /-- GitRepoRemote::Open on the shared Git cache for the fetch. -/
  openJustGitOk : Bool
  /-- CreateTypedTmpDir for the fetch-via-tmp-repo step. -/
  tmpDir2Ok : Bool
  /-- FetchViaTmpRepo into the shared store (some msg = failure). -/
  fetchViaTmpErr : Option String
  /-- Error continuation of the critical-op map for KEEP_TAG. -/
  keepTagErr : Option String
  /-- Flag op_result.result of the KEEP_TAG critical op. -/
  keepTagResult : Bool
  /-- StorageConfig::GitRoot() rendered as a string. -/
  gitRootPath : String
  /-- Path of the tmp dir used to copy a tree from the remote CAS. -/
  tmpDirRemotePath : String
  /-- Path of the command execution root tmp dir. -/
  tmpDirPath : String
  /-- Path of the tmp dir of the fetch-via-tmp-repo step. -/
  tmpDir2Path : String

/-- Observable events of one key resolution: the probe of the shared object
store, progress-tracker transitions, the remote-CAS contact and the
generator-command execution. -/
inductive Event where
  | probeCache : Event
  | start : String → Event
  | probeRemote : Event
  | execGenerator : Event
  | stop : String → Event
deriving DecidableEq, Repr

/-- Result of one key resolution: the setter was called with the cache-hit
flag, or a fatal logger call was emitted with the given message. -/
inductive FetchResult where
  | ready : Bool → FetchResult
  | failed : String → FetchResult
deriving DecidableEq, Repr

/-- Insert-or-update on an association-list environment, modelling
assignment into the std::map of environment variables. -/
def upsertEnv (m : List (String × String)) (k v : String) :
    List (String × String) :=
  match m with
  | [] => [(k, v)]
  | (k', v') :: rest =>
      if k' = k then (k, v) :: rest else (k', v') :: upsertEnv rest k v

/-- Child-process environment: env_vars overlaid with the ambient values of
the inherit_env names (source lines building std::map env). -/
def computeEnv (key : GitTreeInfo) (ambient : String → Option String) :
    List (String × String) :=
  key.inheritEnv.foldl
    (fun e k =>
      match ambient k with
      | some v => upsertEnv e k v
      | none => e)
    key.envVars

/-- Continuation of the compute function from the INITIAL_COMMIT critical op
on, given the outcome of the generator command (source lines 203-394).  It
is split out so that the independence of the overall result from the
subprocess exit status is a statement about a single argument. -/
def afterExec (key : GitTreeInfo) (cmdline : List String) (env : FetchEnv)
    (tr : List Event) (execResult : Option CommandOutput) :
    FetchResult × List Event :=
  match execResult with
  | none =>
      (.failed ("Failed to execute command:\n" ++ dumpJsonStringList cmdline),
       tr)
  | some out =>
      match env.initialCommitErr with
      | some m =>
          (.failed ("While running critical Git op INITIAL_COMMIT for target "
              ++ env.tmpDirPath ++ ":\n" ++ m), tr)
      | none =>
          match env.commitResult with
          | none => (.failed "Commit failed", tr)
          | some commit =>
              if env.openTmpRepoOk = false then
                (.failed ("Could not open repository " ++ env.tmpDirPath), tr)
              else
                match env.repoTreeCheck with
                | .error m =>
                    (.failed ("While checking tree exists:\n" ++ m), tr)
                | .ok true =>
                    if env.openJustGitOk = false then
                      (.failed ("Could not open Git repository "
                          ++ env.tmpDirPath), tr)
                    else if env.tmpDir2Ok = false then
                      (.failed ("Could not create unique path for target "
                          ++ env.tmpDirPath), tr)
                    else
                      match env.fetchViaTmpErr with
                      | some m =>
                          (.failed ("While fetch via tmp repo for target "
                              ++ env.tmpDirPath ++ ":\n" ++ m), tr)
                      | none =>
                          match env.keepTagErr with
                          | some m =>
                              (.failed
                                ("While running critical Git op KEEP_TAG for commit "
                                  ++ commit ++ " in target " ++ env.tmpDir2Path
                                  ++ ":\n" ++ m), tr)
                          | none =>
                              if env.keepTagResult = false then
                                (.failed "Keep tag failed", tr)
                              else
                                (.ready false, tr ++ [.stop key.origin])
                | .ok false =>
                    let outStr := (out.stdoutRead).getD ""
                    let errStr := (out.stderrRead).getD ""
                    let output :=
                      if !outStr.isEmpty || !errStr.isEmpty then
                        ".\nOutput of command:\n" ++ outStr ++ errStr
                      else ""
                    (.failed ("Executing " ++ dumpJsonStringList cmdline
                        ++ " did not create specified tree " ++ key.hash
                        ++ output), tr)

/-- Compute function of the git-tree fetch map for one key (the lambda
tree_to_cache of CreateGitTreeFetchMap), returning the result delivered to
the setter or the fatal logger message, together with the event trace. -/
def CreateGitTreeFetchMap (key : GitTreeInfo) (launcher : List String)
    (env : FetchEnv) : FetchResult × List Event :=
  match env.ensureInitErr with
  | some m =>
      (.failed ("While running critical Git op ENSURE_INIT bare for target "
          ++ env.gitRootPath ++ ":\n" ++ m), [])
  | none =>
      if env.ensureInitResult = false then (.failed "Git cache init failed", [])
      else if env.openGitCacheOk = false then
        (.failed ("Could not open repository " ++ env.gitRootPath), [])
      else
        match env.cacheTreeCheck with
        | .error m =>
            (.failed ("While checking tree exists in Git cache:\n" ++ m),
             [.probeCache])
        | .ok true => (.ready true, [.probeCache])
        | .ok false =>
            let tr0 : List Event := [.probeCache, .start key.origin]
            let tr1 := if env.remoteGiven then tr0 ++ [.probeRemote] else tr0
            if env.remoteGiven && env.remoteAvailable && env.retrieveToCasOk
            then
              let tr2 := tr1 ++ [.stop key.origin]
              if env.tmpDirRemoteOk = false then
                (.failed ("Failed to create tmp directory for copying git-tree "
                    ++ key.hash ++ " from remote CAS"), tr2)
              else if env.retrieveToPathsOk = false then
                (.failed ("Failed to copy git-tree " ++ key.hash ++ " to "
                    ++ env.tmpDirRemotePath), tr2)
              else
                match env.importErr with
                | some m =>
                    (.failed ("While moving git-tree " ++ key.hash ++ " from "
                        ++ env.tmpDirRemotePath ++ " to local git:\n" ++ m),
                     tr2)
                | none =>
                    if env.importOk = false then
                      (.failed "Importing to git failed", tr2)
                    else (.ready false, tr2)
            else
              if env.tmpDirOk = false then
                (.failed "Failed to create tmp directory for tree id map!", tr1)
              else if env.outDirOk = false then
                (.failed "Failed to create tmp directory for tree id map!", tr1)
              else
                let cmdline := launcher ++ key.command
                let childEnv := computeEnv key env.ambient
                afterExec key cmdline env (tr1 ++ [.execGenerator])
                  (env.exec cmdline childEnv)

/-! Model of Expression values and the repository dependency resolver

Source: the just-mr main file (src/unnamed/part_001) and the setup
utilities header appended to git_tree_fetch_map.cpp (kAltDirs,
SetupRepos).  Expression values are modelled by JExpr: enough structure to
distinguish strings, maps (association lists in stored order, first match
wins on lookup) and all other values. -/

/-- Model of an Expression (or JSON) value: a string, a map, or anything
else (numbers, booleans, lists, null). -/
inductive JExpr where
  | str : String → JExpr
  | map : List (String × JExpr) → JExpr
  | other : JExpr

/-- Lookup in a model map: first entry with the given key. -/
def lookupJ : List (String × JExpr) → String → Option JExpr
  | [], _ => none
  | (k, v) :: rest, key => if k = key then some v else lookupJ rest key

/-- Expression::Get with a none default: a value for the key when the
receiver is a map and has the key, none otherwise. -/
def getField : JExpr → String → Option JExpr
  | .map l, key => lookupJ l key
  | _, _ => none

/-- Overlay-root field names (kAltDirs in the setup utilities header). -/
def kAltDirs : List String := ["target_root", "rule_root", "expression_root"]

/-- Setup closure: the two ordered lists of SetupRepos. -/
structure SetupRepos where
  to_setup : List String
  to_include : List String
deriving DecidableEq, Repr

/-- Fuel-indexed embedding of the recursive lambda traverseBindings inside
ReachableRepositories: depth-first traversal of the bindings graph with
deduplication against the accumulated to_include list.  The source
recursion carries no fuel; needFuel below is shown to be enough for the
recursion to have reached its fixed point, which is the termination
statement of the source loop. -/
def traverseBindings (m : List (String × JExpr)) :
    Nat → List String → String → List String
  | 0, acc, _ => acc
  | fuel + 1, acc, name =>
    if acc.contains name then acc
    else
      let acc1 := acc ++ [name]
      match lookupJ m name with
      | none => acc1
      | some desc =>
          match getField desc "bindings" with
          | some (JExpr.map bs) =>
              bs.foldl
                (fun a kv =>
                  match kv.snd with
                  | JExpr.str s => traverseBindings m fuel a s
                  | _ => a)
                acc1
          | _ => acc1

/-- Fuel that suffices for the traversal to reach its fixed point: one more
than the number of map keys (only keys of the repositories map can sustain
the recursion; every recursive call permanently adds a fresh key to the
accumulator first). -/
def needFuel (m : List (String × JExpr)) : Nat := (m.map Prod.fst).length + 1

/-- Overlay-root names of a repository entry, in kAltDirs order: the
string values of its target_root, rule_root and expression_root fields
(source loop over kAltDirs in ReachableRepositories). -/
def overlaysOf (m : List (String × JExpr)) (repo : String) : List String :=
  match lookupJ m repo with
  | none => []
  | some desc =>
      kAltDirs.filterMap
        (fun layer =>
          match getField desc layer with
          | some (JExpr.str s) => some s
          | _ => none)

/-- Core of ReachableRepositories on a repositories map: to_include is the
bindings closure of main, to_setup is to_include followed by the overlay
names of its members (appended without deduplication, as in the source). -/
def reachableList (m : List (String × JExpr)) (main : String) : SetupRepos :=
  let toInclude := traverseBindings m (needFuel m) [] main
  { to_setup := toInclude ++ toInclude.flatMap (overlaysOf m),
    to_include := toInclude }

/-- ReachableRepositories of the just-mr main file: clears the passed
SetupRepos (so the prior contents never influence the result) and, when
the repositories value is a map, fills both lists from the closure
computation. -/
def ReachableRepositories (repos : JExpr) (main : String)
    (_prior : SetupRepos) : SetupRepos :=
  match repos with
  | .map m => reachableList m main
  | _ => { to_setup := [], to_include := [] }

/-- DefaultReachableRepositories: both lists are the full key list of the
repositories map; on a non-map value the passed lists are left unchanged
(the source guards the assignment with IsMap). -/
def DefaultReachableRepositories (repos : JExpr) (prior : SetupRepos) :
    SetupRepos :=
  match repos with
  | .map m =>
      let keys := m.map Prod.fst
      { to_setup := keys, to_include := keys }
  | _ => prior

/-- Main-repository choice of MultiRepoFetch (source lines around
min_element): the command-line main when given, otherwise the first
minimal element of to_include (std::min_element with operator less),
none when to_include is empty. -/
def fetchChooseMain (toInclude : List String) (mainArg : Option String) :
    Option String :=
  match mainArg with
  | some m => some m
  | none =>
      match toInclude with
      | [] => none
      | h :: t => some (t.foldl (fun m x => if x < m then x else m) h)

/-! Model of the fetch driver MultiRepoFetch

Exit codes are declared in the just-mr exit-codes header, which is not
part of the sources at hand; the specification fixes 0 for success and
distinct non-zero codes per failure class, so the non-zero values below
are arbitrary representatives. -/

/-- Modelled from the spec: exit code of a successful run. -/
def kExitSuccess : Nat := 0

/-- Modelled from the spec: distinct non-zero exit code for a
configuration error. -/
def kExitConfigError : Nat := 4

/-- Modelled from the spec: distinct non-zero exit code for a fetch
error. -/
def kExitFetchError : Nat := 5

/-- Checkout types of repository descriptors. -/
inductive CheckoutType where
  | Git : CheckoutType
  | Archive : CheckoutType
  | File : CheckoutType
  | GitTree : CheckoutType
deriving DecidableEq, Repr

/-- Modelled from the spec: kCheckoutTypeMap of the just-mr utilities
header (not among the sources at hand), mapping the type field of a
resolved repository descriptor to its checkout class; archive and zip are
the archive class. -/
def kCheckoutTypeMap : List (String × CheckoutType) :=
  [("git", .Git), ("archive", .Archive), ("zip", .Archive),
   ("file", .File), ("git tree", .GitTree)]

/-- Content description of an archive repository (ArchiveContent). -/
structure ArchiveContent where
  content : String
  distfile : String
  fetchUrl : String
  sha256 : String
  sha512 : String
deriving DecidableEq, Repr

/-- Archive repository info gathered by the fetch driver
(ArchiveRepoInfo). -/
structure ArchiveRepoInfo where
  archive : ArchiveContent
  repoType : String
  subdir : String
deriving DecidableEq, Repr

/-- Modelled from the spec: JustMR::Utils::ResolveRepo (declared in the
utilities header, definition not among the sources at hand): follows the
repository-field indirection — a string value names another repository
whose repository field is consulted next — detecting cycles via the list
of names already seen, and stops at the first non-string value.  none
models the fatal cycle answer. -/
def ResolveRepoAux (repos : JExpr) :
    Nat → List String → Option JExpr → Option JExpr
  | 0, _, _ => none
  | _ + 1, _, none => some JExpr.other
  | fuel + 1, seen, some desc =>
      match desc with
      | .str name =>
          if seen.contains name then none
          else
            match getField repos name with
            | some entry =>
                ResolveRepoAux repos fuel (name :: seen)
                  (getField entry "repository")
            | none => some JExpr.other
      | d => some d

/-- Modelled from the spec: entry point of the repository-indirection
resolution, with fuel covering every possible chain through the map. -/
def ResolveRepo (desc : JExpr) (repos : JExpr) : Option JExpr :=
  match repos with
  | .map m => ResolveRepoAux repos (m.length + 1) [] (some desc)
  | _ => ResolveRepoAux repos 1 [] (some desc)

/-- Lexical path normalization used for the subdir field
(std::filesystem::path::lexically_normal restricted to relative paths):
drops dot components and resolves inner dot-dot components. -/
def lexicalComponents (comps : List String) : List String :=
  comps.foldl
    (fun acc c =>
      if c = "" || c = "." then acc
      else if c = ".." then
        match acc.reverse with
        | [] => acc ++ [c]
        | last :: _ => if last = ".." then acc ++ [c] else acc.dropLast
      else acc ++ [c])
    []

/-- Normalized subdir string of an archive descriptor; the empty result is
replaced by a dot as in the source. -/
def normalSubdir (s : String) : String :=
  let comps := lexicalComponents (s.splitOn "/")
  if comps.isEmpty then "." else String.intercalate "/" comps

/-- Per-repository step of the gather loop of MultiRepoFetch (source loop
over to_include): error with the fetch exit code on any of the config
failures, none for repositories that are not of archive class, and the
gathered ArchiveRepoInfo otherwise. -/
def gatherOne (repos : JExpr) (name : String) :
    Except Nat (Option ArchiveRepoInfo) :=
  match getField repos name with
  | none => .error kExitFetchError
  | some repoDesc =>
      match getField repoDesc "repository" with
      | none => .error kExitFetchError
      | some repo =>
          match ResolveRepo repo repos with
          | none => .error kExitFetchError
          | some resolved =>
              match getField resolved "type" with
              | none => .error kExitFetchError
              | some ty =>
                  match ty with
                  | .str tyStr =>
                      match lookupCheckout tyStr with
                      | none => .error kExitFetchError
                      | some ctype =>
                          if ctype = CheckoutType.Archive then
                            match getField resolved "content" with
                            | some (.str content) =>
                                match getField resolved "fetch" with
                                | some (.str fetchUrl) =>
                                    let distfile :=
                                      match getField resolved "distfile" with
                                      | some (.str s) => s
                                      | _ => ""
                                    let sha256 :=
                                      match getField resolved "sha256" with
                                      | some (.str s) => s
                                      | _ => ""
                                    let sha512 :=
                                      match getField resolved "sha512" with
                                      | some (.str s) => s
                                      | _ => ""
                                    let subdir :=
                                      match getField resolved "subdir" with
                                      | some (.str s) => normalSubdir s
                                      | _ => "."
                                    .ok (some
                                      { archive :=
                                          { content := content,
                                            distfile := distfile,
                                            fetchUrl := fetchUrl,
                                            sha256 := sha256,
                                            sha512 := sha512 },
                                        repoType := tyStr,
                                        subdir := subdir })
                                | some _ => .error kExitFetchError
                                | none => .error kExitFetchError
                            | some _ => .error kExitFetchError
                            | none => .error kExitFetchError
                          else .ok none
                  | _ => .error kExitFetchError
where
  lookupCheckout (s : String) : Option CheckoutType :=
    (kCheckoutTypeMap.find? (fun p => p.fst = s)).map Prod.snd

/-- Gather loop over the to_include list, stopping at the first error. -/
def gatherRepos (repos : JExpr) : List String →
    Except Nat (List ArchiveRepoInfo)
  | [] => .ok []
  | name :: rest =>
      match gatherOne repos name with
      | .error c => .error c
      | .ok none => gatherRepos repos rest
      | .ok (some info) =>
          match gatherRepos repos rest with
          | .error c => .error c
          | .ok l => .ok (info :: l)

/-- Arguments of the fetch subcommand that MultiRepoFetch consults. -/
structure FetchArgs where
  fetchDir : Option String
  distdirs : List String
  subAll : Bool
  mainArg : Option String

/-- External-world oracle for MultiRepoFetch: directory existence,
canonicalization, directory creation and the per-archive outcome of the
fetch pipeline. -/
structure FetchWorld where
  isDirectory : String → Bool
  canonAbs : String → String
  createDirOk : Bool
  fetchOutcome : ArchiveRepoInfo → Bool

/-- First configured distdir that exists, canonicalized (fetch-dir search
loop of MultiRepoFetch). -/
def firstExistingDistdir (w : FetchWorld) : List String → Option String
  | [] => none
  | d :: rest =>
      if w.isDirectory d then some (w.canonAbs d)
      else firstExistingDistdir w rest

/-- MultiRepoFetch of the just-mr main file: fetch-dir determination,
mandatory repositories key, default closure, optional main-restricted
closure, gather loop and fetch pipeline.  The workspace-location warning
block of the source only logs and is omitted.  The final exit code is 0
exactly when no stage failed. -/
def MultiRepoFetch (config : JExpr) (args : FetchArgs) (w : FetchWorld) :
    Nat :=
  let fetchDir :=
    match args.fetchDir with
    | some d => some d
    | none => firstExistingDistdir w args.distdirs
  match fetchDir with
  | none => kExitFetchError
  | some _ =>
      match getField config "repositories" with
      | none => kExitFetchError
      | some repos =>
          let fetchRepos0 :=
            DefaultReachableRepositories repos
              { to_setup := [], to_include := [] }
          let fetchRepos :=
            if args.subAll then fetchRepos0
            else
              match fetchChooseMain fetchRepos0.to_include args.mainArg with
              | some m => ReachableRepositories repos m fetchRepos0
              | none => fetchRepos0
          if w.createDirOk = false then kExitFetchError
          else
            match gatherRepos repos fetchRepos.to_include with
            | .error c => c
            | .ok toFetch =>
                if toFetch.all w.fetchOutcome then kExitSuccess
                else kExitFetchError

/-! Model of the two ReadLocation overloads

Source: the two ReadLocation functions of the just-mr main file.
Filesystem paths are modelled as an absolute flag plus components;
std::filesystem::weakly_canonical composed with std::filesystem::absolute
is modelled as lexical normalization after resolving relative paths
against the current working directory (symlink resolution is outside the
model). -/

/-- Filesystem path model: whether the path is absolute, plus its
components (dot and dot-dot components included until normalization). -/
structure FsPath where
  isAbs : Bool
  comps : List String
deriving DecidableEq, Repr

/-- Empty relative path, the value of a default-constructed
std::filesystem::path. -/
def FsPath.emptyPath : FsPath := { isAbs := false, comps := [] }

/-- Path concatenation following operator slash of std::filesystem: an
absolute right operand replaces the left one. -/
def pathConcat (a b : FsPath) : FsPath :=
  if b.isAbs then b else { isAbs := a.isAbs, comps := a.comps ++ b.comps }

/-- Modelling of std::filesystem::absolute: a relative path is resolved
against the current working directory. -/
def fsAbsolute (cwd p : FsPath) : FsPath :=
  if p.isAbs then p else pathConcat cwd p

/-- Modelling of std::filesystem::weakly_canonical on the model paths:
lexical normalization of the component list. -/
def fsCanonical (p : FsPath) : FsPath :=
  { isAbs := p.isAbs, comps := lexicalComponents p.comps }

/-- Parse a path string into the model: a leading slash makes it absolute,
the slash-separated pieces are the components. -/
def strToPath (s : String) : FsPath :=
  { isAbs := s.startsWith "/", comps := (s.splitOn "/").filter (· ≠ "") }

/-- Full resolution performed by both ReadLocation overloads on one
location member: root_path slash the member, made absolute, then weakly
canonicalized. -/
def resolveLoc (cwd rootPath : FsPath) (s : String) : FsPath :=
  fsCanonical (fsAbsolute cwd (pathConcat rootPath (strToPath s)))

/-- JSON location object as far as ReadLocation reads it: optional path,
root and base members (string-valued; non-string values would throw in
the source and are outside this model). -/
structure LocationJson where
  path : Option String
  root : Option String
  base : Option String

/-- Expression location object as far as the ExpressionPtr overload reads
it: root and path via Get with a none default, base via Get with a
string default of dot. -/
structure LocationExpr where
  root : Option String
  path : Option String
  base : String

/-- Result of a ReadLocation call: a resolved (path, base) pair, a
nullopt return (workspace root absent, or a null location expression),
or a call of std::exit with the configuration-error code. -/
inductive ReadLocationResult where
  | ok : FsPath → FsPath → ReadLocationResult
  | skipped : ReadLocationResult
  | configError : ReadLocationResult
deriving DecidableEq, Repr

/-- Ambient path context of ReadLocation: the detected workspace root (if
any), the user home directory, the current working directory and its
filesystem root. -/
structure PathContext where
  wsRoot : Option FsPath
  home : FsPath
  cwd : FsPath
  sysRoot : FsPath

/-- Modelled from the spec: kLocationTypes of the just-mr utilities header
(not among the sources at hand), the recognized root values of a
location. -/
def kLocationTypes : List String := ["workspace", "home", "system"]

/-- ReadLocation, nlohmann::json overload: requires the path and root
members, defaults base to dot, then resolves against the workspace root,
the home directory or the system root according to the root value.  The
three source ifs test the same root string against distinct literals, so
they are rendered as an if-else chain; an unrecognized root value leaves
root_path default-constructed (the empty relative path). -/
def ReadLocationJson (loc : LocationJson) (ctx : PathContext) :
    ReadLocationResult :=
  match loc.path, loc.root with
  | some path, some root =>
      let base := loc.base.getD "."
      if root = "workspace" then
        match ctx.wsRoot with
        | none => .skipped
        | some w => .ok (resolveLoc ctx.cwd w path) (resolveLoc ctx.cwd w base)
      else if root = "home" then
        .ok (resolveLoc ctx.cwd ctx.home path) (resolveLoc ctx.cwd ctx.home base)
      else if root = "system" then
        .ok (resolveLoc ctx.cwd ctx.sysRoot path)
          (resolveLoc ctx.cwd ctx.sysRoot base)
      else
        .ok (resolveLoc ctx.cwd FsPath.emptyPath path)
          (resolveLoc ctx.cwd FsPath.emptyPath base)
  | _, _ => .configError

/-- ReadLocation, ExpressionPtr overload: a null location yields nullopt;
a missing path or root member, or a root value outside kLocationTypes,
exits with the configuration-error code; otherwise resolution proceeds as
in the JSON overload. -/
def ReadLocationExpr (loc : Option LocationExpr) (ctx : PathContext) :
    ReadLocationResult :=
  match loc with
  | none => .skipped
  | some l =>
      match l.path, l.root with
      | some path, some root =>
          if kLocationTypes.contains root then
            if root = "workspace" then
              match ctx.wsRoot with
              | none => .skipped
              | some w =>
                  .ok (resolveLoc ctx.cwd w path) (resolveLoc ctx.cwd w l.base)
            else if root = "home" then
              .ok (resolveLoc ctx.cwd ctx.home path)
                (resolveLoc ctx.cwd ctx.home l.base)
            else if root = "system" then
              .ok (resolveLoc ctx.cwd ctx.sysRoot path)
                (resolveLoc ctx.cwd ctx.sysRoot l.base)
            else
              .ok (resolveLoc ctx.cwd FsPath.emptyPath path)
                (resolveLoc ctx.cwd FsPath.emptyPath l.base)
          else .configError
      | _, _ => .configError
/-! Helper lemmas about the fetch-map model -/

/-- Replacing the exec oracle leaves afterExec unchanged: the continuation
after the subprocess launch never consults the oracle again. -/
theorem afterExec_update_exec (key : GitTreeInfo) (c : List String)
    (f : List String → List (String × String) → Option CommandOutput)
    (env : FetchEnv) (tr : List Event) (r : Option CommandOutput) :
    afterExec key c { env with exec := f } tr r = afterExec key c env tr r :=
  rfl

/-- The continuation after the subprocess launch never inspects the exit
status: rewriting retval in the command output changes nothing. -/
theorem afterExec_map_retval (key : GitTreeInfo) (c : List String)
    (env : FetchEnv) (tr : List Event) (n : Nat)
    (r : Option CommandOutput) :
    afterExec key c env tr
        (r.map (fun o => { o with retval := n })) =
      afterExec key c env tr r := by
  cases r with
  | none => rfl
  | some o => rfl

/-- Shape of any afterExec outcome: either a failure whose trace is exactly
the incoming one (no Stop appended), or success with cache_hit false and
exactly one Stop appended to the trace. -/
theorem afterExec_cases (key : GitTreeInfo) (c : List String)
    (env : FetchEnv) (tr : List Event) (r : Option CommandOutput) :
    ((∃ m, (afterExec key c env tr r).fst = .failed m) ∧
      (afterExec key c env tr r).snd = tr) ∨
    ((afterExec key c env tr r).fst = .ready false ∧
      (afterExec key c env tr r).snd = tr ++ [.stop key.origin]) := by
  unfold afterExec
  repeat' split
  all_goals simp
/-- Replacing the subprocess exit status in every oracle answer does not
change the outcome of the compute function at all. -/
theorem createGitTreeFetchMap_retval_irrelevant (key : GitTreeInfo)
    (launcher : List String) (env : FetchEnv) (n : Nat) :
    CreateGitTreeFetchMap key launcher
        { env with exec := fun c e =>
            (env.exec c e).map (fun o => { o with retval := n }) } =
      CreateGitTreeFetchMap key launcher env := by
  simp only [CreateGitTreeFetchMap, afterExec_update_exec, afterExec_map_retval]

/-- C1 theorem -/
theorem claim1_cache_hit (key : GitTreeInfo) (launcher : List String)
    (env : FetchEnv)
    (h1 : env.ensureInitErr = none) (h2 : env.ensureInitResult = true)
    (h3 : env.openGitCacheOk = true) (h4 : env.cacheTreeCheck = .ok true) :
    CreateGitTreeFetchMap key launcher env = (.ready true, [.probeCache]) := by
  unfold CreateGitTreeFetchMap
  rw [h1, h2, h3, h4]
  rfl
/-- Concrete key used by the witnesses. -/
def keyBase : GitTreeInfo :=
  { hash := "abc123", command := ["make"], envVars := [],
    inheritEnv := [], origin := "origin0" }

/-- Concrete all-success environment used by the witnesses. -/
def envBase : FetchEnv :=
  { ensureInitErr := none, ensureInitResult := true, openGitCacheOk := true,
    cacheTreeCheck := .ok false, remoteGiven := false,
    remoteAvailable := false, retrieveToCasOk := false,
    tmpDirRemoteOk := true, retrieveToPathsOk := true, importErr := none,
    importOk := true, tmpDirOk := true, outDirOk := true,
    ambient := fun _ => none,
    exec := fun _ _ =>
      some { retval := 0, stdoutRead := some "", stderrRead := some "" },
    initialCommitErr := none, commitResult := some "c0",
    openTmpRepoOk := true, repoTreeCheck := .ok true, openJustGitOk := true,
    tmpDir2Ok := true, fetchViaTmpErr := none, keepTagErr := none,
    keepTagResult := true, gitRootPath := "/gitroot",
    tmpDirRemotePath := "/tmp/r", tmpDirPath := "/tmp/t",
    tmpDir2Path := "/tmp/u" }

/-- C1 witness -/
theorem claim1_cache_hit_witness :
    CreateGitTreeFetchMap keyBase []
        { envBase with cacheTreeCheck := .ok true } =
      (.ready true, [.probeCache]) :=
  claim1_cache_hit keyBase [] { envBase with cacheTreeCheck := .ok true }
    rfl rfl rfl rfl

/-- C2 counterexample: on the remote-CAS path, Stop(origin) is emitted as
soon as retrieval into the local CAS succeeds; a later failure (here: the
tmp-dir creation) therefore fails the key although Stop was already
emitted, contradicting the claim that no Stop is emitted on any failure. -/
theorem claim2_counterexample :
    CreateGitTreeFetchMap keyBase []
        { envBase with remoteGiven := true, remoteAvailable := true,
                       retrieveToCasOk := true, tmpDirRemoteOk := false } =
      (.failed
        "Failed to create tmp directory for copying git-tree abc123 from remote CAS",
       [.probeCache, .start "origin0", .probeRemote, .stop "origin0"]) ∧
    Event.stop "origin0" ∈
      [Event.probeCache, .start "origin0", .probeRemote, .stop "origin0"] :=
  ⟨rfl, by decide⟩
/-- C2 amended theorem -/
theorem claim2_amended (key : GitTreeInfo) (launcher : List String)
    (env : FetchEnv)
    (h1 : env.ensureInitErr = none) (h2 : env.ensureInitResult = true)
    (h3 : env.openGitCacheOk = true) (hmiss : env.cacheTreeCheck = .ok false) :
    (CreateGitTreeFetchMap key launcher env).snd.count (.start key.origin)
        = 1 ∧
    (∀ b, (CreateGitTreeFetchMap key launcher env).fst = .ready b →
      (CreateGitTreeFetchMap key launcher env).snd.count (.stop key.origin)
        = 1) ∧
    (∀ m, (CreateGitTreeFetchMap key launcher env).fst = .failed m →
      (CreateGitTreeFetchMap key launcher env).snd.count (.stop key.origin)
        = (if env.remoteGiven && env.remoteAvailable && env.retrieveToCasOk
           then 1 else 0)) := by
  unfold CreateGitTreeFetchMap
  rw [h1, h2, h3, hmiss]
  dsimp only
  repeat' split
  all_goals try simp_all [List.count_cons, List.count_append]
  all_goals
    first
      | (rcases afterExec_cases key (launcher ++ key.command) env
            [Event.probeCache, Event.start key.origin, Event.probeRemote,
              Event.execGenerator]
            (env.exec (launcher ++ key.command) (computeEnv key env.ambient))
          with ⟨⟨m1, hm1⟩, hsnd⟩ | ⟨hfst, hsnd⟩ <;>
        simp_all [List.count_cons, List.count_append])
      | (rcases afterExec_cases key (launcher ++ key.command) env
            [Event.probeCache, Event.start key.origin, Event.execGenerator]
            (env.exec (launcher ++ key.command) (computeEnv key env.ambient))
          with ⟨⟨m1, hm1⟩, hsnd⟩ | ⟨hfst, hsnd⟩ <;>
        simp_all [List.count_cons, List.count_append])

/-- C2 amended witness -/
theorem claim2_amended_witness :
    (CreateGitTreeFetchMap keyBase [] envBase).snd.count
        (.start keyBase.origin) = 1 ∧
    (∀ b, (CreateGitTreeFetchMap keyBase [] envBase).fst = .ready b →
      (CreateGitTreeFetchMap keyBase [] envBase).snd.count
        (.stop keyBase.origin) = 1) ∧
    (∀ m, (CreateGitTreeFetchMap keyBase [] envBase).fst = .failed m →
      (CreateGitTreeFetchMap keyBase [] envBase).snd.count
        (.stop keyBase.origin) =
        (if envBase.remoteGiven && envBase.remoteAvailable
            && envBase.retrieveToCasOk then 1 else 0)) :=
  claim2_amended keyBase [] envBase rfl rfl rfl rfl
/-- C3 theorem -/
theorem claim3_generator_verification (key : GitTreeInfo)
    (launcher : List String) (env : FetchEnv) (commit : String)
    (h1 : env.ensureInitErr = none) (h2 : env.ensureInitResult = true)
    (h3 : env.openGitCacheOk = true) (hmiss : env.cacheTreeCheck = .ok false)
    (hnorem : (env.remoteGiven && env.remoteAvailable
        && env.retrieveToCasOk) = false)
    (htd : env.tmpDirOk = true) (hod : env.outDirOk = true)
    (hic : env.initialCommitErr = none) (hcr : env.commitResult = some commit)
    (hotr : env.openTmpRepoOk = true) (hojg : env.openJustGitOk = true)
    (htd2 : env.tmpDir2Ok = true) (hfvt : env.fetchViaTmpErr = none)
    (hkte : env.keepTagErr = none) (hktr : env.keepTagResult = true) :
    ((env.exec (launcher ++ key.command) (computeEnv key env.ambient)).isSome →
      ((CreateGitTreeFetchMap key launcher env).fst = .ready false ↔
        env.repoTreeCheck = .ok true)) ∧
    (env.exec (launcher ++ key.command) (computeEnv key env.ambient) = none →
      (CreateGitTreeFetchMap key launcher env).fst =
        .failed ("Failed to execute command:\n"
          ++ dumpJsonStringList (launcher ++ key.command))) ∧
    (∀ n, CreateGitTreeFetchMap key launcher
        { env with exec := fun c e =>
            (env.exec c e).map (fun o => { o with retval := n }) } =
      CreateGitTreeFetchMap key launcher env) := by
  refine ⟨?_, ?_, fun n =>
    createGitTreeFetchMap_retval_irrelevant key launcher env n⟩
  · intro hs
    obtain ⟨out, hout⟩ := Option.isSome_iff_exists.mp hs
    unfold CreateGitTreeFetchMap afterExec
    rw [h1, h2, h3, hmiss]
    dsimp only
    rw [hnorem, htd, hod, hout, hic, hcr, hotr]
    cases hrt : env.repoTreeCheck with
    | error m => simp [hrt]
    | ok b =>
        cases b with
        | false => simp
        | true => simp [hojg, htd2, hfvt, hkte, hktr]
  · intro hnone
    unfold CreateGitTreeFetchMap afterExec
    rw [h1, h2, h3, hmiss]
    dsimp only
    rw [hnorem, htd, hod, hnone]
    simp
/-- C3 witness -/
theorem claim3_generator_verification_witness :
    ((envBase.exec ([] ++ keyBase.command)
        (computeEnv keyBase envBase.ambient)).isSome →
      ((CreateGitTreeFetchMap keyBase [] envBase).fst = .ready false ↔
        envBase.repoTreeCheck = .ok true)) ∧
    (envBase.exec ([] ++ keyBase.command)
        (computeEnv keyBase envBase.ambient) = none →
      (CreateGitTreeFetchMap keyBase [] envBase).fst =
        .failed ("Failed to execute command:\n"
          ++ dumpJsonStringList ([] ++ keyBase.command))) ∧
    (∀ n, CreateGitTreeFetchMap keyBase []
        { envBase with exec := fun c e =>
            (envBase.exec c e).map (fun o => { o with retval := n }) } =
      CreateGitTreeFetchMap keyBase [] envBase) :=
  claim3_generator_verification keyBase [] envBase "c0"
    rfl rfl rfl rfl rfl rfl rfl rfl rfl rfl rfl rfl rfl rfl rfl

/-- C4 theorem -/
theorem claim4_mismatch_diagnostic (key : GitTreeInfo)
    (launcher : List String) (env : FetchEnv) (out : CommandOutput)
    (commit : String)
    (h1 : env.ensureInitErr = none) (h2 : env.ensureInitResult = true)
    (h3 : env.openGitCacheOk = true) (hmiss : env.cacheTreeCheck = .ok false)
    (hnorem : (env.remoteGiven && env.remoteAvailable
        && env.retrieveToCasOk) = false)
    (htd : env.tmpDirOk = true) (hod : env.outDirOk = true)
    (hexec : env.exec (launcher ++ key.command)
        (computeEnv key env.ambient) = some out)
    (hic : env.initialCommitErr = none) (hcr : env.commitResult = some commit)
    (hotr : env.openTmpRepoOk = true)
    (hmm : env.repoTreeCheck = .ok false) :
    ∃ msg, (CreateGitTreeFetchMap key launcher env).fst = .failed msg ∧
      containsSub msg (dumpJsonStringList (launcher ++ key.command)) ∧
      (∀ s, out.stdoutRead = some s → s ≠ "" → containsSub msg s) ∧
      (∀ s, out.stderrRead = some s → s ≠ "" → containsSub msg s) := by
  have heq : (CreateGitTreeFetchMap key launcher env).fst =
      .failed ("Executing " ++ dumpJsonStringList (launcher ++ key.command)
        ++ " did not create specified tree " ++ key.hash
        ++ (if !((out.stdoutRead).getD "").isEmpty
              || !((out.stderrRead).getD "").isEmpty then
            ".\nOutput of command:\n" ++ (out.stdoutRead).getD ""
              ++ (out.stderrRead).getD ""
          else "")) := by
    unfold CreateGitTreeFetchMap afterExec
    rw [h1, h2, h3, hmiss]
    dsimp only
    rw [hnorem, htd, hod, hexec, hic, hcr, hotr, hmm]
    rfl
  refine ⟨_, heq, ?_, ?_, ?_⟩
  · exact ⟨"Executing ",
      " did not create specified tree " ++ key.hash
        ++ (if !((out.stdoutRead).getD "").isEmpty
              || !((out.stderrRead).getD "").isEmpty then
            ".\nOutput of command:\n" ++ (out.stdoutRead).getD ""
              ++ (out.stderrRead).getD ""
          else ""),
      by simp [String.append_assoc]⟩
  · intro s hsr hne
    have hie : s.isEmpty = false := by
      rw [Bool.eq_false_iff]
      intro hh
      exact hne ((String.isEmpty_iff s).mp hh)
    rw [hsr]
    refine ⟨"Executing " ++ dumpJsonStringList (launcher ++ key.command)
        ++ " did not create specified tree " ++ key.hash
        ++ ".\nOutput of command:\n",
      (out.stderrRead).getD "", ?_⟩
    simp [hie, String.append_assoc]
  · intro s hsr hne
    have hie : s.isEmpty = false := by
      rw [Bool.eq_false_iff]
      intro hh
      exact hne ((String.isEmpty_iff s).mp hh)
    rw [hsr]
    refine ⟨"Executing " ++ dumpJsonStringList (launcher ++ key.command)
        ++ " did not create specified tree " ++ key.hash
        ++ ".\nOutput of command:\n" ++ (out.stdoutRead).getD "",
      "", ?_⟩
    simp [hie, String.append_assoc]

/-- Concrete mismatching command output used by the C4 witness. -/
def outMismatch : CommandOutput :=
  { retval := 3, stdoutRead := some "hello", stderrRead := some "oops" }

/-- Concrete environment whose generator command does not create the
declared tree. -/
def envMismatch : FetchEnv :=
  { envBase with repoTreeCheck := .ok false,
                 exec := fun _ _ => some outMismatch }

/-- C4 witness -/
theorem claim4_mismatch_diagnostic_witness :
    ∃ msg, (CreateGitTreeFetchMap keyBase [] envMismatch).fst = .failed msg ∧
      containsSub msg (dumpJsonStringList ([] ++ keyBase.command)) ∧
      (∀ s, outMismatch.stdoutRead = some s → s ≠ "" → containsSub msg s) ∧
      (∀ s, outMismatch.stderrRead = some s → s ≠ "" → containsSub msg s) :=
  claim4_mismatch_diagnostic keyBase [] envMismatch outMismatch "c0"
    rfl rfl rfl rfl rfl rfl rfl rfl rfl rfl rfl rfl
/-! Lemmas about the bindings traversal -/

/-- A successful lookup means the name is among the map keys. -/
theorem lookupJ_mem_keys {m : List (String × JExpr)} {name : String}
    {d : JExpr} (h : lookupJ m name = some d) : name ∈ m.map Prod.fst := by
  induction m with
  | nil => simp [lookupJ] at h
  | cons kv rest ih =>
      rw [lookupJ] at h
      by_cases hk : kv.fst = name
      · simp [hk]
      · rw [if_neg hk] at h
        simp [ih h]

/-- The traversal step of the bindings fold only extends the accumulator
(prefix preservation through the fold). -/
theorem traverse_foldl_extends (m : List (String × JExpr)) (fuel : Nat)
    (h : ∀ (a : List String) (name : String), a <+: traverseBindings m fuel a name) :
    ∀ (bs : List (String × JExpr)) (a : List String),
      a <+: bs.foldl
        (fun a kv =>
          match kv.snd with
          | JExpr.str s => traverseBindings m fuel a s
          | _ => a) a := by
  intro bs
  induction bs with
  | nil => intro a; exact List.prefix_refl a
  | cons kv rest ih =>
      intro a
      simp only [List.foldl_cons]
      cases hkv : kv.snd with
      | str s => exact (h a s).trans (ih (traverseBindings m fuel a s))
      | map l => exact ih a
      | other => exact ih a

/-- The bindings traversal only extends the accumulator. -/
theorem traverse_extends (m : List (String × JExpr)) :
    ∀ (fuel : Nat) (acc : List String) (name : String),
      acc <+: traverseBindings m fuel acc name := by
  intro fuel
  induction fuel with
  | zero => intro acc name; exact List.prefix_refl acc
  | succ f ih =>
      intro acc name
      unfold traverseBindings
      by_cases hc : acc.contains name
      · rw [if_pos hc]
      · rw [if_neg hc]
        dsimp only
        cases hl : lookupJ m name with
        | none => exact List.prefix_append acc [name]
        | some desc =>
            dsimp only
            cases hg : getField desc "bindings" with
            | none => exact List.prefix_append acc [name]
            | some e =>
                cases e with
                | str s => exact List.prefix_append acc [name]
                | other => exact List.prefix_append acc [name]
                | map bs =>
                    exact (List.prefix_append acc [name]).trans
                      (traverse_foldl_extends m f ih bs (acc ++ [name]))

/-- A fresh name is placed right after the incoming accumulator. -/
theorem traverse_fresh_extends (m : List (String × JExpr)) (fuel : Nat)
    (acc : List String) (name : String)
    (hc : acc.contains name = false) :
    (acc ++ [name]) <+: traverseBindings m (fuel + 1) acc name := by
  unfold traverseBindings
  rw [if_neg (by simpa using hc)]
  dsimp only
  cases hl : lookupJ m name with
  | none => exact List.prefix_refl _
  | some desc =>
      dsimp only
      cases hg : getField desc "bindings" with
      | none => exact List.prefix_refl _
      | some e =>
          cases e with
          | str s => exact List.prefix_refl _
          | other => exact List.prefix_refl _
          | map bs =>
              exact traverse_foldl_extends m fuel (traverse_extends m fuel)
                bs (acc ++ [name])

/-- Number of map keys not yet contained in the accumulator: the measure
along which the traversal makes progress. -/
def keysLeft (m : List (String × JExpr)) (acc : List String) : Nat :=
  ((m.map Prod.fst).filter (fun k => !acc.contains k)).length

/-- Filter-length monotonicity under pointwise predicate implication. -/
theorem filter_length_mono (U : List String) (p q : String → Bool)
    (h : ∀ k, q k = true → p k = true) :
    (U.filter q).length ≤ (U.filter p).length := by
  induction U with
  | nil => simp
  | cons u rest ih =>
      by_cases hq : q u = true
      · rw [List.filter_cons_of_pos hq, List.filter_cons_of_pos (h u hq)]
        simpa using ih
      · rw [List.filter_cons_of_neg (by simpa using hq)]
        by_cases hp : p u = true
        · rw [List.filter_cons_of_pos hp]
          exact ih.trans (by simp)
        · rw [List.filter_cons_of_neg (by simpa using hp)]
          exact ih

/-- Strict filter-length decrease at a member the stronger predicate
rejects. -/
theorem filter_length_strict (U : List String) (p q : String → Bool)
    (h : ∀ k, q k = true → p k = true) (a : String) (ha : a ∈ U)
    (hpa : p a = true) (hqa : q a = false) :
    (U.filter q).length < (U.filter p).length := by
  induction U with
  | nil => simp at ha
  | cons u rest ih =>
      rcases List.mem_cons.mp ha with hau | har
      · subst hau
        rw [List.filter_cons_of_pos hpa, List.filter_cons_of_neg (by simp [hqa])]
        exact Nat.lt_succ_of_le (filter_length_mono rest p q h)
      · by_cases hq : q u = true
        · rw [List.filter_cons_of_pos hq, List.filter_cons_of_pos (h u hq)]
          simpa using ih har
        · rw [List.filter_cons_of_neg (by simpa using hq)]
          by_cases hp : p u = true
          · rw [List.filter_cons_of_pos hp]
            exact (ih har).trans (by simp)
          · rw [List.filter_cons_of_neg (by simpa using hp)]
            exact ih har

/-- The measure is antitone in the accumulator. -/
theorem keysLeft_mono (m : List (String × JExpr)) {acc acc' : List String}
    (h : acc ⊆ acc') : keysLeft m acc' ≤ keysLeft m acc := by
  apply filter_length_mono
  intro k hk
  simp only [Bool.not_eq_true', ← Bool.not_eq_true] at hk ⊢
  intro hmem
  exact hk (by simpa using h (by simpa using hmem))

/-- Adding a fresh key to the accumulator strictly decreases the
measure. -/
theorem keysLeft_strict (m : List (String × JExpr)) {acc : List String}
    {name : String} (hmem : name ∈ m.map Prod.fst)
    (hc : acc.contains name = false) :
    keysLeft m (acc ++ [name]) < keysLeft m acc := by
  apply filter_length_strict _ _ _ _ name hmem
  · simpa using hc
  · simp
  · intro k hk
    simp only [Bool.not_eq_true'] at hk ⊢
    have hk' : ¬ k ∈ acc ++ [name] := by simpa using hk
    have hka : ¬ k ∈ acc := fun hmm => hk' (List.mem_append_left _ hmm)
    simpa using hka
/-- One-step fuel stabilization: with fuel exceeding the measure, adding
one more unit of fuel does not change the traversal result. -/
theorem traverse_stable (m : List (String × JExpr)) :
    ∀ (fuel : Nat) (acc : List String) (name : String),
      keysLeft m acc + 1 ≤ fuel →
      traverseBindings m fuel acc name
        = traverseBindings m (fuel + 1) acc name := by
  intro fuel
  induction fuel with
  | zero => intro acc name h; exact absurd h (by omega)
  | succ f ih =>
      intro acc name h
      conv_rhs => unfold traverseBindings
      conv_lhs => unfold traverseBindings
      by_cases hc : acc.contains name
      · rw [if_pos hc, if_pos hc]
      · rw [if_neg hc, if_neg hc]
        dsimp only
        cases hl : lookupJ m name with
        | none => rfl
        | some desc =>
            dsimp only
            cases hg : getField desc "bindings" with
            | none => rfl
            | some e =>
                cases e with
                | str s => rfl
                | other => rfl
                | map bs =>
                    have hmem : name ∈ m.map Prod.fst := lookupJ_mem_keys hl
                    have hcf : acc.contains name = false := by
                      simpa using hc
                    have hlt : keysLeft m (acc ++ [name]) < keysLeft m acc :=
                      keysLeft_strict m hmem hcf
                    have hfold : ∀ (bs' : List (String × JExpr))
                        (a : List String), (acc ++ [name]) ⊆ a →
                        bs'.foldl
                          (fun a kv =>
                            match kv.snd with
                            | JExpr.str s => traverseBindings m f a s
                            | _ => a) a
                          = bs'.foldl
                            (fun a kv =>
                              match kv.snd with
                              | JExpr.str s => traverseBindings m (f + 1) a s
                              | _ => a) a := by
                      intro bs'
                      induction bs' with
                      | nil => intro a _; rfl
                      | cons kv rest ihbs =>
                          intro a hsub
                          simp only [List.foldl_cons]
                          cases hkv : kv.snd with
                          | str s =>
                              dsimp only
                              have hmu : keysLeft m a + 1 ≤ f := by
                                have h1 : keysLeft m a
                                    ≤ keysLeft m (acc ++ [name]) :=
                                  keysLeft_mono m hsub
                                omega
                              rw [← ih a s hmu]
                              exact ihbs (traverseBindings m f a s)
                                (hsub.trans
                                  (traverse_extends m f a s).subset)
                          | map l => exact ihbs a hsub
                          | other => exact ihbs a hsub
                    exact hfold bs (acc ++ [name]) (fun x hx => hx)

/-- The measure is bounded by the number of keys. -/
theorem keysLeft_le (m : List (String × JExpr)) (acc : List String) :
    keysLeft m acc ≤ (m.map Prod.fst).length :=
  List.length_filter_le _ _

/-- Fixed point of the traversal: any fuel of at least needFuel yields the
needFuel result — the termination statement for the unbounded source
recursion. -/
theorem traverse_fix (m : List (String × JExpr)) :
    ∀ (fuel : Nat), needFuel m ≤ fuel →
      ∀ (acc : List String) (name : String),
        traverseBindings m fuel acc name
          = traverseBindings m (needFuel m) acc name := by
  intro fuel
  induction fuel with
  | zero =>
      intro h
      exact absurd h (by unfold needFuel; omega)
  | succ f ihf =>
      intro h acc name
      by_cases he : needFuel m = f + 1
      · rw [he]
      · have hf : needFuel m ≤ f := by omega
        have hb : keysLeft m acc + 1 ≤ f := by
          have := keysLeft_le m acc
          unfold needFuel at hf
          omega
        rw [← traverse_stable m f acc name hb]
        exact ihf hf acc name
/-- The traversal preserves distinctness of the accumulated list. -/
theorem traverse_nodup (m : List (String × JExpr)) :
    ∀ (fuel : Nat) (acc : List String) (name : String),
      acc.Nodup → (traverseBindings m fuel acc name).Nodup := by
  intro fuel
  induction fuel with
  | zero => intro acc name h; exact h
  | succ f ih =>
      intro acc name h
      unfold traverseBindings
      by_cases hc : acc.contains name
      · rw [if_pos hc]; exact h
      · rw [if_neg hc]
        dsimp only
        have hna : name ∉ acc := by simpa using hc
        have h1 : (acc ++ [name]).Nodup := by
          simp [List.nodup_append, h, hna]
        cases hl : lookupJ m name with
        | none => exact h1
        | some desc =>
            dsimp only
            cases hg : getField desc "bindings" with
            | none => exact h1
            | some e =>
                cases e with
                | str s => exact h1
                | other => exact h1
                | map bs =>
                    have hfold : ∀ (bs' : List (String × JExpr))
                        (a : List String), a.Nodup →
                        (bs'.foldl
                          (fun a kv =>
                            match kv.snd with
                            | JExpr.str s => traverseBindings m f a s
                            | _ => a) a).Nodup := by
                      intro bs'
                      induction bs' with
                      | nil => intro a ha; exact ha
                      | cons kv rest ihbs =>
                          intro a ha
                          simp only [List.foldl_cons]
                          cases hkv : kv.snd with
                          | str s => dsimp only; exact ihbs _ (ih a s ha)
                          | map l => exact ihbs a ha
                          | other => exact ihbs a ha
                    exact hfold bs (acc ++ [name]) h1

/-- Starting from an empty accumulator, the first visited name heads the
resulting list. -/
theorem traverse_head (m : List (String × JExpr)) (f : Nat) (name : String) :
    (traverseBindings m (f + 1) [] name).head? = some name := by
  have hpre : ([] ++ [name]) <+: traverseBindings m (f + 1) [] name :=
    traverse_fresh_extends m f [] name (by simp)
  rcases hpre with ⟨t, ht⟩
  rw [← ht]
  rfl
/-- Concrete repositories map where one repository names itself as its own
target_root overlay. -/
def reposDup : List (String × JExpr) :=
  [("a", JExpr.map [("target_root", JExpr.str "a")])]

/-- C5 counterexample: the source appends overlay names to to_setup
without deduplication, so to_setup can contain duplicates. -/
theorem claim5_counterexample :
    (reachableList reposDup "a").to_setup = ["a", "a"] ∧
    ¬ (reachableList reposDup "a").to_setup.Nodup := by
  constructor
  · rfl
  · intro h
    rw [show (reachableList reposDup "a").to_setup = ["a", "a"] from rfl] at h
    simp at h

/-- C5 amended theorem: to_setup is to_include followed by the overlay
names of its members in order (without deduplication); as a set it is the
union of to_include with the referenced overlay names; to_include is
duplicate-free and contained in to_setup. -/
theorem claim5_amended (m : List (String × JExpr)) (main : String) :
    (reachableList m main).to_setup =
      (reachableList m main).to_include
        ++ (reachableList m main).to_include.flatMap (overlaysOf m) ∧
    (∀ x, x ∈ (reachableList m main).to_setup ↔
      (x ∈ (reachableList m main).to_include ∨
        ∃ r, r ∈ (reachableList m main).to_include ∧ x ∈ overlaysOf m r)) ∧
    (reachableList m main).to_include.Nodup ∧
    (∀ x, x ∈ (reachableList m main).to_include →
      x ∈ (reachableList m main).to_setup) := by
  refine ⟨rfl, ?_, ?_, ?_⟩
  · intro x
    simp [reachableList]
  · exact traverse_nodup m (needFuel m) [] main List.nodup_nil
  · intro x hx
    simp only [reachableList] at hx ⊢
    exact List.mem_append_left _ hx

/-- C6 theorem: ReachableRepositories clears its in-out lists first, so
re-applying it to its own result is the identity; to_include is
duplicate-free and headed by main. -/
theorem claim6_resolver_idempotent (repos : JExpr) (main : String)
    (prior : SetupRepos) (m : List (String × JExpr))
    (hm : repos = JExpr.map m) :
    ReachableRepositories repos main
        (ReachableRepositories repos main prior)
      = ReachableRepositories repos main prior ∧
    (ReachableRepositories repos main prior).to_include.Nodup ∧
    (ReachableRepositories repos main prior).to_include.head?
      = some main := by
  subst hm
  refine ⟨rfl, ?_, ?_⟩
  · exact traverse_nodup m (needFuel m) [] main List.nodup_nil
  · exact traverse_head m ((m.map Prod.fst).length) main

/-- Concrete two-repository map whose bindings form a cycle. -/
def reposAB : List (String × JExpr) :=
  [("a", JExpr.map [("bindings", JExpr.map [("x", JExpr.str "b")])]),
   ("b", JExpr.map [("bindings", JExpr.map [("x", JExpr.str "a")])])]

/-- C6 witness -/
theorem claim6_resolver_idempotent_witness :
    ReachableRepositories (JExpr.map reposAB) "a"
        (ReachableRepositories (JExpr.map reposAB) "a"
          { to_setup := [], to_include := [] })
      = ReachableRepositories (JExpr.map reposAB) "a"
          { to_setup := [], to_include := [] } ∧
    (ReachableRepositories (JExpr.map reposAB) "a"
        { to_setup := [], to_include := [] }).to_include.Nodup ∧
    (ReachableRepositories (JExpr.map reposAB) "a"
        { to_setup := [], to_include := [] }).to_include.head?
      = some "a" :=
  claim6_resolver_idempotent (JExpr.map reposAB) "a"
    { to_setup := [], to_include := [] } reposAB rfl

/-- C7 theorem: the bindings traversal reaches its fixed point at
needFuel on every finite repositories map (termination of the unbounded
source recursion, cycles included), and on the concrete two-repository
bindings cycle with main a it yields to_include equal to a then b with no
error. -/
theorem claim7_bindings_cycle_terminates (m : List (String × JExpr))
    (fuel : Nat) (acc : List String) (name : String)
    (h : needFuel m ≤ fuel) :
    traverseBindings m fuel acc name
      = traverseBindings m (needFuel m) acc name ∧
    ReachableRepositories (JExpr.map reposAB) "a"
        { to_setup := [], to_include := [] }
      = { to_setup := ["a", "b"], to_include := ["a", "b"] } :=
  ⟨traverse_fix m fuel h acc name, rfl⟩

/-- C7 witness -/
theorem claim7_bindings_cycle_terminates_witness :
    traverseBindings reposAB 7 [] "a"
      = traverseBindings reposAB (needFuel reposAB) [] "a" ∧
    ReachableRepositories (JExpr.map reposAB) "a"
        { to_setup := [], to_include := [] }
      = { to_setup := ["a", "b"], to_include := ["a", "b"] } :=
  claim7_bindings_cycle_terminates reposAB 7 [] "a" (by decide)
/-- The running minimum of the fold is an element of the scanned list. -/
theorem foldlMin_mem :
    ∀ (t : List String) (h : String),
      t.foldl (fun m x => if x < m then x else m) h ∈ h :: t := by
  intro t
  induction t with
  | nil => intro h; simp
  | cons x t' ih =>
      intro h
      simp only [List.foldl_cons]
      by_cases hx : x < h
      · rw [if_pos hx]
        exact List.mem_cons_of_mem h (ih x)
      · rw [if_neg hx]
        rcases List.mem_cons.mp (ih h) with h1 | h1
        · rw [h1]
          exact List.mem_cons_self _ _
        · exact List.mem_cons_of_mem _ (List.mem_cons_of_mem _ h1)

/-- The running minimum of the fold bounds every element from below. -/
theorem foldlMin_le :
    ∀ (t : List String) (h : String) (x : String), x ∈ h :: t →
      t.foldl (fun m x => if x < m then x else m) h ≤ x := by
  intro t
  induction t with
  | nil =>
      intro h x hx
      rcases List.mem_cons.mp hx with h1 | h1
      · subst h1; simp
      · simp at h1
  | cons y t' ih =>
      intro h x hx
      simp only [List.foldl_cons]
      have hstep_h : (if y < h then y else h) ≤ h := by
        by_cases hy : y < h
        · rw [if_pos hy]; exact le_of_lt hy
        · rw [if_neg hy]
      have hstep_y : (if y < h then y else h) ≤ y := by
        by_cases hy : y < h
        · rw [if_pos hy]
        · rw [if_neg hy]; exact le_of_not_lt hy
      have hmin : t'.foldl (fun m x => if x < m then x else m)
          (if y < h then y else h) ≤ (if y < h then y else h) :=
        ih (if y < h then y else h) (if y < h then y else h) (by simp)
      rcases List.mem_cons.mp hx with h1 | h1
      · subst h1; exact hmin.trans hstep_h
      · rcases List.mem_cons.mp h1 with h2 | h2
        · subst h2; exact hmin.trans hstep_y
        · exact ih (if y < h then y else h) x (List.mem_cons_of_mem _ h2)

/-- C8 theorem: with no main given, the fetch driver picks the
lexicographically smallest repository name out of the full key list
produced by DefaultReachableRepositories. -/
theorem claim8_default_main_is_min (m : List (String × JExpr))
    (k0 : String) (rest : List String)
    (hk : m.map Prod.fst = k0 :: rest) :
    ∃ k, fetchChooseMain
        (DefaultReachableRepositories (JExpr.map m)
          { to_setup := [], to_include := [] }).to_include none = some k ∧
      k ∈ m.map Prod.fst ∧ ∀ x ∈ m.map Prod.fst, k ≤ x := by
  refine ⟨rest.foldl (fun mn x => if x < mn then x else mn) k0, ?_, ?_, ?_⟩
  · simp only [DefaultReachableRepositories, fetchChooseMain]
    rw [hk]
  · rw [hk]
    exact foldlMin_mem rest k0
  · intro x hx
    rw [hk] at hx
    exact foldlMin_le rest k0 x hx

/-- C8 witness -/
theorem claim8_default_main_is_min_witness :
    ∃ k, fetchChooseMain
        (DefaultReachableRepositories (JExpr.map reposAB)
          { to_setup := [], to_include := [] }).to_include none = some k ∧
      k ∈ reposAB.map Prod.fst ∧ ∀ x ∈ reposAB.map Prod.fst, k ≤ x :=
  claim8_default_main_is_min reposAB "a" ["b"] rfl
/-- Concrete configuration without a repositories key. -/
def configNoRepos : JExpr := JExpr.map [("main", JExpr.str "")]

/-- Concrete configuration with an explicitly empty repositories map. -/
def configEmptyRepos : JExpr :=
  JExpr.map [("repositories", JExpr.map [])]

/-- Concrete fetch arguments: fetch dir given, no main, no sub-all. -/
def argsW : FetchArgs :=
  { fetchDir := some "/fetch", distdirs := [], subAll := false,
    mainArg := none }

/-- Concrete external world for the fetch driver. -/
def worldW : FetchWorld :=
  { isDirectory := fun _ => false, canonAbs := fun s => s,
    createDirOk := true, fetchOutcome := fun _ => true }

/-- C9 counterexample: the fetch driver rejects a configuration whose
repositories key is missing with the fetch-error exit code instead of
treating it as an empty mapping and succeeding. -/
theorem claim9_counterexample :
    MultiRepoFetch configNoRepos argsW worldW = kExitFetchError ∧
    kExitFetchError ≠ 0 :=
  ⟨rfl, by decide⟩

/-- C9 amended theorem: for the fetch subcommand the repositories key is
mandatory — omitting it yields the fetch-error exit code — while an
explicitly empty repositories mapping is processed successfully with exit
code 0. -/
theorem claim9_repositories_key (config : JExpr) (args : FetchArgs)
    (w : FetchWorld) (d : String)
    (hfd : args.fetchDir = some d) (hmain : args.mainArg = none) :
    (getField config "repositories" = none →
      MultiRepoFetch config args w = kExitFetchError) ∧
    (getField config "repositories" = some (JExpr.map []) →
      w.createDirOk = true →
      MultiRepoFetch config args w = kExitSuccess) := by
  constructor
  · intro hno
    unfold MultiRepoFetch
    rw [hfd]
    dsimp only
    rw [hno]
  · intro hemp hcd
    unfold MultiRepoFetch
    rw [hfd]
    dsimp only
    rw [hemp, hmain]
    by_cases hsa : args.subAll <;>
      simp [hsa, hcd, DefaultReachableRepositories, fetchChooseMain,
        gatherRepos, kExitSuccess]

/-- C9 amended witness -/
theorem claim9_repositories_key_witness :
    MultiRepoFetch configEmptyRepos argsW worldW = kExitSuccess :=
  (claim9_repositories_key configEmptyRepos argsW worldW "/fetch"
    rfl rfl).2 rfl rfl

/-- Concatenation with the empty relative path on the left is the
identity. -/
theorem pathConcat_empty (q : FsPath) :
    pathConcat FsPath.emptyPath q = q := by
  unfold pathConcat FsPath.emptyPath
  cases q with
  | mk a c => cases a <;> simp

/-- C10 theorem: on a location object with path and root present but an
unrecognized root value, the JSON overload reports no error and resolves
against the default-constructed (empty) root path — i.e. relative to the
current working directory — while the ExpressionPtr overload exits with
the configuration-error code. -/
theorem claim10_readlocation_divergence (ctx : PathContext) (p r : String)
    (b : Option String) (hr : r ∉ kLocationTypes) :
    ReadLocationJson { path := some p, root := some r, base := b } ctx =
      .ok (resolveLoc ctx.cwd FsPath.emptyPath p)
          (resolveLoc ctx.cwd FsPath.emptyPath (b.getD ".")) ∧
    pathConcat FsPath.emptyPath (strToPath p) = strToPath p ∧
    ReadLocationExpr
        (some { root := some r, path := some p, base := b.getD "." }) ctx
      = .configError := by
  have h1 : r ≠ "workspace" := by
    intro hh; exact hr (by simp [kLocationTypes, hh])
  have h2 : r ≠ "home" := by
    intro hh; exact hr (by simp [kLocationTypes, hh])
  have h3 : r ≠ "system" := by
    intro hh; exact hr (by simp [kLocationTypes, hh])
  refine ⟨?_, pathConcat_empty _, ?_⟩
  · unfold ReadLocationJson
    dsimp only
    rw [if_neg h1, if_neg h2, if_neg h3]
  · unfold ReadLocationExpr
    dsimp only
    rw [if_neg (by simpa using hr)]

/-- Concrete path context for the C10 witness. -/
def ctxW : PathContext :=
  { wsRoot := none, home := { isAbs := true, comps := ["home", "u"] },
    cwd := { isAbs := true, comps := ["work"] },
    sysRoot := { isAbs := true, comps := [] } }

/-- C10 witness -/
theorem claim10_readlocation_divergence_witness :
    ReadLocationJson
        { path := some "x/y", root := some "nonsense", base := none } ctxW =
      .ok (resolveLoc ctxW.cwd FsPath.emptyPath "x/y")
          (resolveLoc ctxW.cwd FsPath.emptyPath ((none : Option String).getD ".")) ∧
    pathConcat FsPath.emptyPath (strToPath "x/y") = strToPath "x/y" ∧
    ReadLocationExpr
        (some { root := some "nonsense", path := some "x/y",
                base := (none : Option String).getD "." }) ctxW
      = .configError :=
  claim10_readlocation_divergence ctxW "x/y" "nonsense" none (by decide)
